import Mathlib

/-!
Shallow embedding of the bobarista form-flow library (Go) and proofs about
its navigation, validation, value-store and controller state machine.

Modelling conventions, from the Go source:
* `map[string]*string` (FormValues) is a total function
  `String → Option (Option String)`: `none` means the key is absent,
  `some none` is a key bound to a nil pointer, `some (some s)` a key bound
  to a string value.
* Go nil pointers / nil function fields are `Option`.
* Go `(T, error)` returns are `T × Option GoError`.
* Go `int` indices are `Int` where the source can hold `-1`/`-2` sentinels,
  `Nat` for loop counters that are provably non-negative.
* The bubbletea / huh widgets are external to this repository.  A huh form
  is modelled by its observable state (`HuhFormState`); its message-driven
  update function is an arbitrary parameter `upd` of the controller step.
* The renderer and the log calls are pure presentation / diagnostics: no
  control-flow or data read by the modelled operations depends on them, so
  they are omitted from the controller state.
-/

/-- `FormValues` models Go `type FormValues map[string]*string`.
`none` = key absent, `some none` = key present with nil pointer,
`some (some s)` = key present with value `s`. -/
def FormValues : Type := String → Option (Option String)

/-- `NewFormValues` returns an empty store (Go `make(FormValues)`). -/
def FormValues.empty : FormValues := fun _ => none

/-- `Set` stores a (copied) value for the key. -/
def FormValues.Set (fv : FormValues) (key value : String) : FormValues :=
  fun x => if x = key then some (some value) else fv x

/-- `Get` returns the value and true iff the key exists with a non-nil value. -/
def FormValues.Get (fv : FormValues) (key : String) : String × Bool :=
  match fv key with
  | some (some v) => (v, true)
  | _ => ("", false)

/-- `Merge` combines the entries of `other` (a possibly-nil `*FormValues`)
into `fv`: for every key of `other`, `fv` gets `other`'s value for it
(nil-ness preserved); a nil `other` is a no-op. -/
def FormValues.Merge (fv : FormValues) (other : Option FormValues) : FormValues :=
  match other with
  | none => fv
  | some o => fun k =>
      match o k with
      | some v => some v
      | none => fv k

/-- `FormData` couples a form ID with a possibly-nil pointer to its values. -/
structure FormData where
  ID : String
  Values : Option FormValues

/-- `NewFormData` builds a FormData with a fresh empty store. -/
def NewFormData (id : String) : FormData :=
  { ID := id, Values := some FormValues.empty }

/-- Observable state of an external huh form widget. -/
inductive HuhFormState where
  | normal
  | completed
  | aborted
  deriving DecidableEq

/-- An external huh form widget, reduced to the state the controller reads. -/
structure HuhForm where
  state : HuhFormState

/-- Go error values that flow through the modelled code paths. -/
inductive GoError where
  | invalidFormIndex
  | formNotFound
  | noFormsProvided
  | noValidForms
  | noGenerator
  | nilForm
  | emptyFormID
  /-- an arbitrary error built by user code (e.g. `errors.New(s)`) -/
  | msg (s : String)
  /-- `CupSleeveError{FormID, Err}` -/
  | cupSleeve (formID : String) (err : GoError)
  /-- `DuplicateFormIDError{ID, FirstIndex, SecondIndex}` -/
  | duplicateFormID (id : String) (firstIndex secondIndex : Nat)
  deriving DecidableEq

/-- The callbacks attached to a form.  The Go callbacks receive pointers and
may mutate the pointed-to data; handlers are modelled as functions returning
the updated data.  `CompletionHandler` returns (updated step data, updated
global data, error). -/
def FormGenerator : Type := FormValues → Option FormValues → Option HuhForm

def CompletionHandler : Type := FormData → FormData → FormData × FormData × Option GoError

def SkipCondition : Type := FormData → FormData → Bool

def NavigationHandler : Type := FormData → Int

/-- `Form` (form.go): metadata plus optional callbacks. -/
structure Form where
  ID : String
  Name : String
  Group : String
  Generator : Option FormGenerator
  OnComplete : Option CompletionHandler
  ShouldSkip : Option SkipCondition
  NextForm : Option NavigationHandler
  ShowStatus : Bool

instance : Inhabited Form :=
  ⟨{ ID := "", Name := "", Group := "", Generator := none, OnComplete := none,
     ShouldSkip := none, NextForm := none, ShowStatus := false }⟩

/-- `NewForm` creates a form with default settings (ShowStatus = true). -/
def NewForm (id name : String) : Form :=
  { ID := id, Name := name, Group := "", Generator := none, OnComplete := none,
    ShouldSkip := none, NextForm := none, ShowStatus := true }

/-- `Navigator` (navigator.go). -/
structure Navigator where
  forms : List Form
  currentIdx : Int
  history : List Int

/-- `NewNavigator`: starts with no current form. -/
def NewNavigator (forms : List Form) : Navigator :=
  { forms := forms, currentIdx := -1, history := [] }

/-- `Current` returns the active form when `0 <= currentIdx < len(forms)`. -/
def Navigator.Current (n : Navigator) : Option Form :=
  if 0 ≤ n.currentIdx then n.forms[n.currentIdx.toNat]? else none

/-- The candidate test used by `findNextValidForm`: a form is accepted when
its skip predicate is absent or returns false on a freshly-constructed empty
local snapshot (`tempData`) paired with the supplied global data. -/
def formNotSkipped (form : Form) (globalData : FormData) : Bool :=
  match form.ShouldSkip with
  | none => true
  | some shouldSkip =>
      !(shouldSkip { ID := form.ID, Values := some FormValues.empty } globalData)

/-- Loop body of `findNextValidForm`: `for i := startIdx; i < len(forms); i++`.
The index is a `Nat`; every Go call site passes a non-negative start. -/
def findNextValidFormAux (forms : List Form) (globalData : FormData) (i : Nat) :
    Int × Option GoError :=
  if h : i < forms.length then
    if formNotSkipped (forms.get ⟨i, h⟩) globalData then (Int.ofNat i, none)
    else findNextValidFormAux forms globalData (i + 1)
  else (-1, none)
termination_by forms.length - i

/-- `findNextValidForm`: first non-skipped form at or after `startIdx`,
`-1` (with nil error) when the scan exhausts the list. -/
def Navigator.findNextValidForm (n : Navigator) (startIdx : Nat)
    (globalData : FormData) : Int × Option GoError :=
  findNextValidFormAux n.forms globalData startIdx

/-- `Next`: custom navigation handler first (its `-1` falls through to the
default scan from `currentIdx+1`, any other result is returned verbatim),
default sequential scan otherwise (from 0 when no form is current). -/
def Navigator.Next (n : Navigator) (data : FormData) : Int × Option GoError :=
  match n.Current with
  | none => n.findNextValidForm 0 data
  | some current =>
    match current.NextForm with
    | some nextFormFn =>
      let nextIdx := nextFormFn data
      if nextIdx = -1 then n.findNextValidForm (n.currentIdx + 1).toNat data
      else (nextIdx, none)
    | none => n.findNextValidForm (n.currentIdx + 1).toNat data

/-- `MoveTo`: bounds-checked move that pushes the previous current index
(when one existed) onto the history. -/
def Navigator.MoveTo (n : Navigator) (index : Int) : Navigator × Option GoError :=
  if index < 0 ∨ (n.forms.length : Int) ≤ index then (n, some .invalidFormIndex)
  else
    let n' := if 0 ≤ n.currentIdx then { n with history := n.history ++ [n.currentIdx] } else n
    ({ n' with currentIdx := index }, none)

/-- `MoveToFirstValid`: jump (without history push) to the first valid form. -/
def Navigator.MoveToFirstValid (n : Navigator) (globalData : FormData) :
    Navigator × Option GoError :=
  match n.findNextValidForm 0 globalData with
  | (_, some e) => (n, some e)
  | (nextIdx, none) =>
    if nextIdx = -1 then (n, some .noValidForms)
    else ({ n with currentIdx := nextIdx }, none)

/-- `Back`: pop the last history entry into the current index. -/
def Navigator.Back (n : Navigator) : Navigator × Bool :=
  match n.history.getLast? with
  | none => (n, false)
  | some last => ({ n with currentIdx := last, history := n.history.dropLast }, true)

/-- `Reset`: clear current form and history. -/
def Navigator.Reset (n : Navigator) : Navigator :=
  { n with currentIdx := -1, history := [] }

/-- First validation loop of `ValidateNavigation`: walks the forms with a
running index and a first-occurrence map, emitting an empty-ID error or a
duplicate-ID error per offending form. -/
def validateIDsAux (forms : List Form) (i : Nat) (idMap : String → Option Nat) :
    List GoError :=
  match forms with
  | [] => []
  | form :: rest =>
    if form.ID = "" then
      GoError.cupSleeve "" GoError.emptyFormID :: validateIDsAux rest (i + 1) idMap
    else
      match idMap form.ID with
      | some existingIdx =>
          GoError.cupSleeve form.ID (GoError.duplicateFormID form.ID existingIdx i) ::
            validateIDsAux rest (i + 1) idMap
      | none =>
          validateIDsAux rest (i + 1) (fun k => if k = form.ID then some i else idMap k)

/-- `ValidateNavigation`: `ErrNoFormsProvided` alone for an empty flow;
otherwise the ID-validation errors followed by one `ErrNoGenerator` error
per generator-less form — all collected, never short-circuited. -/
def Navigator.ValidateNavigation (n : Navigator) : List GoError :=
  if n.forms.isEmpty then [GoError.noFormsProvided]
  else
    validateIDsAux n.forms 0 (fun _ => none) ++
      n.forms.filterMap (fun form =>
        if form.Generator.isNone then some (GoError.cupSleeve form.ID GoError.noGenerator)
        else none)

/-- Messages processed by the controller (`tea.Msg`): window resize events,
key presses (identified by their `msg.String()` value), anything else. -/
inductive Msg where
  | windowSize (width height : Int)
  | key (k : String)
  | other
  deriving DecidableEq

/-- Commands returned to the runtime: none (`nil`), `tea.Quit`, or an
opaque widget command (a huh form's update/init command). -/
inductive Cmd where
  | nil
  | quit
  | widget
  deriving DecidableEq

/-- `BobaState`. -/
inductive BState where
  | active
  | completed
  | error
  deriving DecidableEq

/-- `Recipe` (config.go), restricted to what the modelled operations read.
The flow-level `OnComplete` callback receives `*Bobarista` in Go; the state
it observes and the only effect it has on control flow are the global data
snapshot and the returned error, so it is modelled as a function of the
global data.  `OnInit` / `DisplayCallback` are presentation-time callbacks
never read by the modelled operations; only their presence is kept. -/
structure Recipe where
  Title : String
  MaxWidth : Int
  DisplayKeys : List String
  ColorScheme : String
  Debug : Bool
  OnInit : Option Unit
  OnComplete : Option (FormData → Option GoError)
  DisplayCallback : Option Unit

/-- `Bobarista` (bobarista.go), without the renderer (pure presentation:
nothing the modelled operations compute reads it). -/
structure Bobarista where
  config : Recipe
  forms : List Form
  navigator : Navigator
  globalData : Option FormData
  currentForm : Option HuhForm
  state : BState
  errors : List GoError
  formValues : Option (String → Option FormValues)

/-- `BobaBuilder`. -/
structure BobaBuilder where
  config : Recipe
  forms : List Form

/-- `Build`: defaults the color scheme, creates the navigator and a non-nil
global store; `formValues` is left as Go's zero value (nil map). -/
def BobaBuilder.Build (b : BobaBuilder) : Bobarista :=
  let config :=
    if b.config.ColorScheme = "" then { b.config with ColorScheme := "default" }
    else b.config
  { config := config
    forms := b.forms
    navigator := NewNavigator b.forms
    globalData := some { ID := "global", Values := some FormValues.empty }
    currentForm := none
    state := .active
    errors := []
    formValues := none }

/-- `GetGlobalData`: a fresh empty-store FormData when the pointer is nil. -/
def Bobarista.GetGlobalData (f : Bobarista) : FormData :=
  match f.globalData with
  | none => { ID := "global", Values := some FormValues.empty }
  | some gd => gd

/-- The per-step cache lookup `f.formValues[id]` (nil map reads as absent). -/
def Bobarista.cachedValues (f : Bobarista) (id : String) : Option FormValues :=
  match f.formValues with
  | none => none
  | some m => m id

/-- `GetCurrentFormData`: empty-ID data with a fresh store when no form is
current; otherwise the current ID with the cached store (or a fresh one). -/
def Bobarista.GetCurrentFormData (f : Bobarista) : FormData :=
  match f.navigator.Current with
  | none => { ID := "", Values := some FormValues.empty }
  | some current =>
    match f.cachedValues current.ID with
    | some stored => { ID := current.ID, Values := some stored }
    | none => { ID := current.ID, Values := some FormValues.empty }

/-- `addError` wraps non-CupSleeve errors with the originating form's ID. -/
def wrapFormError (formID : String) (err : GoError) : GoError :=
  match err with
  | .cupSleeve _ _ => err
  | _ => .cupSleeve formID err

/-- `addError`: append the (possibly wrapped) error and enter Error state. -/
def Bobarista.addError (f : Bobarista) (formID : String) (err : GoError) : Bobarista :=
  { f with errors := f.errors ++ [wrapFormError formID err], state := .error }

/-- `initCurrentForm` (bobarista.go).  Skipped forms recurse after a
successful `MoveTo`; the Go recursion has no a-priori bound (a custom
navigation handler may even make it cycle), so the model takes a fuel
parameter: on exhaustion it stops with the state unchanged, and every
theorem quantifies over the fuel.  The two map writes (create map, create
entry) are modelled on `formValues`; the Go generator receives the cached
store and the global store and yields a possibly-nil widget. -/
def Bobarista.initCurrentForm (f : Bobarista) (fuel : Nat) : Bobarista × Cmd :=
  match f.navigator.Current with
  | none => ({ f with state := .completed }, .nil)
  | some current =>
    let m0 := match f.formValues with
      | none => fun _ => (none : Option FormValues)
      | some m => m
    let m := match m0 current.ID with
      | some _ => m0
      | none => fun k => if k = current.ID then some FormValues.empty else m0 k
    let f := { f with formValues := some m }
    let currentValues := (m current.ID).getD FormValues.empty
    let currentData : FormData := { ID := current.ID, Values := some currentValues }
    let skipped := match current.ShouldSkip with
      | none => false
      | some shouldSkip => shouldSkip currentData f.GetGlobalData
    if skipped then
      match f.navigator.Next f.GetGlobalData with
      | (_, some e) => (f.addError current.ID e, .nil)
      | (nextIndex, none) =>
        if nextIndex = -1 ∨ nextIndex = -2 then ({ f with state := .completed }, .nil)
        else
          match f.navigator.MoveTo nextIndex with
          | (_, some e) => (f.addError current.ID e, .nil)
          | (nav', none) =>
            match fuel with
            | 0 => ({ f with navigator := nav' }, .nil)
            | fuel' + 1 => Bobarista.initCurrentForm { f with navigator := nav' } fuel'
    else
      match current.Generator with
      | none => (f.addError current.ID (.cupSleeve current.ID .noGenerator), .nil)
      | some gen =>
        match gen currentValues f.GetGlobalData.Values with
        | none => (({ f with currentForm := none }).addError current.ID
                     (.cupSleeve current.ID .nilForm), .nil)
        | some w => ({ f with currentForm := some w }, .widget)

/-- The step data handed to the current form's `OnComplete` handler:
the cached store for the step (or a fresh one) under the step's ID. -/
def Bobarista.currentStepData (f : Bobarista) (current : Form) : FormData :=
  { ID := current.ID, Values := some ((f.cachedValues current.ID).getD FormValues.empty) }

/-- `handleFormCompletion` (bobarista.go): run the step's `OnComplete`
handler (a returned error is recorded, halting with no merge and no
navigation), merge the step's values into the global store, ask the
navigator for the next index, and complete / move / record accordingly.
The Go handler mutates the step data and the global data through pointers;
the model takes the handler's returned pair as the post-handler data.  The
step store's own cache entry shares storage with the handler's view in Go;
no modelled claim observes the cache after completion, so the cache is left
as the pre-handler snapshot. -/
def Bobarista.handleFormCompletion (f : Bobarista) (fuel : Nat) : Bobarista × Cmd :=
  match f.navigator.Current with
  | none => ({ f with state := .completed }, .nil)
  | some current =>
    let step : FormData × FormData × Option GoError :=
      match current.OnComplete with
      | some handler => handler (f.currentStepData current) f.GetGlobalData
      | none => (f.currentStepData current, f.GetGlobalData, none)
    match step with
    | (_, gd', some e) => (({ f with globalData := some gd' }).addError current.ID e, .nil)
    | (currentData', gd', none) =>
      let mergedValues := FormValues.Merge (gd'.Values.getD FormValues.empty) currentData'.Values
      let f := { f with globalData := some { gd' with Values := some mergedValues } }
      match f.navigator.Next f.GetGlobalData with
      | (_, some e) => (f.addError current.ID e, .nil)
      | (nextIndex, none) =>
        if nextIndex = -2 then ({ f with state := .completed }, .nil)
        else if nextIndex = -1 then ({ f with state := .completed }, .nil)
        else
          match f.navigator.MoveTo nextIndex with
          | (_, some e) => (f.addError current.ID e, .nil)
          | (nav', none) => Bobarista.initCurrentForm { f with navigator := nav' } fuel

/-- `updateCurrentForm`: feed the message to the widget (via the external
update function `upd`); when the widget reports completion, hand over to
`handleFormCompletion`. -/
def Bobarista.updateCurrentForm (f : Bobarista) (upd : HuhForm → Msg → HuhForm)
    (msg : Msg) (fuel : Nat) : Bobarista × Cmd :=
  match f.currentForm with
  | none => (f, .nil)
  | some w =>
    let w' := upd w msg
    let f := { f with currentForm := some w' }
    if w'.state = .completed then f.handleFormCompletion fuel
    else (f, .widget)

/-- `handleCompletedState`: scroll keys go to the renderer (omitted), q/esc
quit, enter runs the flow-level OnComplete (an error re-enters Error state
without quitting) and quits otherwise. -/
def Bobarista.handleCompletedState (f : Bobarista) (k : String) : Bobarista × Cmd :=
  if k = "up" then (f, .nil)
  else if k = "down" then (f, .nil)
  else if k = "q" ∨ k = "esc" then (f, .quit)
  else if k = "enter" then
    match f.state, f.config.OnComplete with
    | .completed, some cb =>
      match cb f.GetGlobalData with
      | some e => (f.addError "" e, .nil)
      | none => (f, .quit)
    | _, _ => (f, .quit)
  else (f, .nil)

/-- The fall-through tail of `Update`: forward to the active widget when one
exists in Active state, otherwise do nothing. -/
def Bobarista.updateTail (f : Bobarista) (upd : HuhForm → Msg → HuhForm)
    (msg : Msg) (fuel : Nat) : Bobarista × Cmd :=
  if f.state = .active ∧ f.currentForm.isSome then f.updateCurrentForm upd msg fuel
  else (f, .nil)

/-- `Update` (bobarista.go): window-size messages resize the renderer
(omitted) and refresh the widget; key messages in Completed/Error state go
to `handleCompletedState`; ctrl+c / esc quit; everything else is forwarded
to the active widget. -/
def Bobarista.Update (f : Bobarista) (upd : HuhForm → Msg → HuhForm)
    (msg : Msg) (fuel : Nat) : Bobarista × Cmd :=
  match msg with
  | .windowSize _ _ =>
    match f.currentForm with
    | some w => ({ f with currentForm := some (upd w msg) }, .widget)
    | none => f.updateTail upd msg fuel
  | .key k =>
    if f.state = .completed ∨ f.state = .error then f.handleCompletedState k
    else if k = "ctrl+c" ∨ k = "esc" then (f, .quit)
    else if f.state = .active ∧ f.currentForm.isSome then f.updateCurrentForm upd msg fuel
    else f.updateTail upd msg fuel
  | .other => f.updateTail upd msg fuel

/-! ### Concrete instances used to evaluate the definitions -/

/-- A minimal configuration (as produced by `New` + `Build` defaults). -/
def demoRecipe : Recipe :=
  { Title := "t", MaxWidth := 180, DisplayKeys := [], ColorScheme := "default",
    Debug := false, OnInit := none, OnComplete := none, DisplayCallback := none }

/-- A controller state over the given forms with the given current index and
session state, fresh global data and an untouched per-step cache. -/
def mkBoba (forms : List Form) (idx : Int) (st : BState) : Bobarista :=
  { config := demoRecipe, forms := forms,
    navigator := { forms := forms, currentIdx := idx, history := [] },
    globalData := some (NewFormData "global"), currentForm := none,
    state := st, errors := [], formValues := none }

/-- One-form navigator positioned on its (last) form, no custom navigation. -/
def c1Nav : Navigator :=
  { forms := [NewForm "a" "A"], currentIdx := 0, history := [] }

/-- A form whose custom navigation handler inspects the ID of the data it
receives: `5` when it sees the step's own ID, `6` otherwise. -/
def c2Form : Form :=
  { NewForm "A" "Form A" with NextForm := some (fun d => if d.ID = "A" then 5 else 6) }

def c2Nav : Navigator := { forms := [c2Form], currentIdx := 0, history := [] }

/-- A step whose completion handler fails with an already-form-scoped error
carrying a different form ID. -/
def c3FormB : Form :=
  { NewForm "A" "Form A" with
    OnComplete := some (fun c g => (c, g, some (.cupSleeve "B" (.msg "invalid")))) }

def c3Boba : Bobarista := mkBoba [c3FormB] 0 .active

/-- A step whose completion handler fails with a plain error. -/
def c3FormPlain : Form :=
  { NewForm "A" "Form A" with OnComplete := some (fun c g => (c, g, some (.msg "invalid"))) }

def c3BobaPlain : Bobarista := mkBoba [c3FormPlain] 0 .active

def c4Nav : Navigator := { forms := [NewForm "a" "A"], currentIdx := 0, history := [] }

/-- A step whose custom navigation handler terminates the flow (`-2`),
placed before another form guarded by a skip predicate. -/
def c6Form : Form :=
  { NewForm "A" "Form A" with NextForm := some (fun _ => -2) }

def c6Boba : Bobarista :=
  mkBoba [c6Form, { NewForm "B" "Form B" with ShouldSkip := some (fun _ _ => true) }] 0 .active

def c7A : FormValues := FormValues.empty.Set "shared" "old"

/-- A store with a non-nil entry and a nil-pointer entry. -/
def c7B : FormValues := fun k =>
  if k = "shared" then some (some "new") else if k = "nilkey" then some none else none

/-- Two forms sharing the ID "x" (at positions 0 and 1), neither with a
generator. -/
def c8Nav : Navigator :=
  { forms := [NewForm "x" "X1", NewForm "x" "X2"], currentIdx := -1, history := [] }

/-- A widget update function that leaves the widget unchanged. -/
def huhId : HuhForm → Msg → HuhForm := fun w _ => w

/-- A completed session whose flow-level completion callback fails. -/
def c9Demo : Bobarista :=
  { mkBoba [] (-1) .completed with
    config := { demoRecipe with OnComplete := some (fun _ => some (.msg "boom")) } }

/-- An active session with no widget. -/
def c9Active : Bobarista := mkBoba [NewForm "a" "A"] (-1) .active

/-- A controller whose current step has no cached values. -/
def c10Boba : Bobarista := mkBoba [NewForm "A" "Form A"] 0 .active

/-- A controller whose global-data pointer is nil. -/
def c10Nil : Bobarista := { mkBoba [] (-1) .active with globalData := none }

def c10Builder : BobaBuilder := { config := demoRecipe, forms := [NewForm "A" "Form A"] }

/-- The navigation operations of claim C5, applied ignoring their
error/success results (as any caller sequence may). -/
inductive NavOp where
  | moveTo (i : Int)
  | moveToFirstValid (g : FormData)
  | back
  | reset

def Navigator.applyOp (n : Navigator) : NavOp → Navigator
  | .moveTo i => (n.MoveTo i).1
  | .moveToFirstValid g => (n.MoveToFirstValid g).1
  | .back => n.Back.1
  | .reset => n.Reset

def Navigator.applyOps (n : Navigator) (ops : List NavOp) : Navigator :=
  ops.foldl Navigator.applyOp n

/-- The invariant of claim C5: the current index is `-1` or a valid form
index, and every history entry is a valid form index. -/
def Navigator.WellFormed (n : Navigator) : Prop :=
  (n.currentIdx = -1 ∨ (0 ≤ n.currentIdx ∧ n.currentIdx < (n.forms.length : Int))) ∧
  ∀ h ∈ n.history, 0 ≤ h ∧ h < (n.forms.length : Int)

/-! ### Claims -/

/-- C7: `Merge` is right-biased: after `A.Merge(B)` every key of `B` maps to
`B`'s value (nil-ness preserved), keys present only in `A` are unchanged,
and merging a nil or an empty `B` leaves `A` unchanged. -/
theorem merge_right_biased (A B : FormValues) (k : String) :
    (∀ v, B k = some v → A.Merge (some B) k = some v) ∧
    (B k = none → A.Merge (some B) k = A k) ∧
    A.Merge none = A ∧
    A.Merge (some FormValues.empty) = A := by
  refine ⟨?_, ?_, rfl, ?_⟩
  · intro v hv
    simp [FormValues.Merge, hv]
  · intro hv
    simp [FormValues.Merge, hv]
  · funext x
    rfl

/-- Witness for C7 at a concrete pair of stores and keys. -/
theorem merge_right_biased_witness :
    (c7B "shared" = some (some "new") ∧ c7A.Merge (some c7B) "shared" = some (some "new")) ∧
    (c7B "nilkey" = some none ∧ c7A.Merge (some c7B) "nilkey" = some none) ∧
    (c7B "own" = none ∧ c7A.Merge (some c7B) "own" = c7A "own") := by
  have h1 := merge_right_biased c7A c7B "shared"
  have h2 := merge_right_biased c7A c7B "nilkey"
  have h3 := merge_right_biased c7A c7B "own"
  exact ⟨⟨by decide, h1.1 _ (by decide)⟩, ⟨by decide, h2.1 _ (by decide)⟩,
    ⟨by decide, h3.2.1 (by decide)⟩⟩

/-- C4: `MoveTo` outside `[0, N)` fails with the invalid-index error and
changes nothing; inside `[0, N)` it succeeds, pushes the previous current
index onto the history exactly when one existed, and sets the current
index. -/
theorem moveTo_spec (n : Navigator) (i : Int) :
    ((i < 0 ∨ (n.forms.length : Int) ≤ i) → n.MoveTo i = (n, some GoError.invalidFormIndex)) ∧
    (0 ≤ i → i < (n.forms.length : Int) →
      (n.MoveTo i).2 = none ∧
      (n.MoveTo i).1.currentIdx = i ∧
      (n.MoveTo i).1.forms = n.forms ∧
      (n.MoveTo i).1.history =
        (if 0 ≤ n.currentIdx then n.history ++ [n.currentIdx] else n.history)) := by
  constructor
  · intro h
    simp only [Navigator.MoveTo]
    rw [if_pos h]
  · intro h1 h2
    have hc : ¬(i < 0 ∨ (n.forms.length : Int) ≤ i) := by omega
    simp only [Navigator.MoveTo]
    rw [if_neg hc]
    by_cases h3 : 0 ≤ n.currentIdx
    · simp [h3]
    · simp [h3]

/-- Witness for C4: out-of-range and in-range moves on a concrete navigator. -/
theorem moveTo_spec_witness :
    c4Nav.MoveTo 5 = (c4Nav, some GoError.invalidFormIndex) ∧
    (c4Nav.MoveTo 0).2 = none ∧
    (c4Nav.MoveTo 0).1.currentIdx = 0 ∧
    (c4Nav.MoveTo 0).1.history = c4Nav.history ++ [0] := by
  have h5 := moveTo_spec c4Nav 5
  have h0 := moveTo_spec c4Nav 0
  refine ⟨h5.1 (by right; decide), ?_⟩
  have h := h0.2 (by decide) (by decide)
  refine ⟨h.1, h.2.1, ?_⟩
  have := h.2.2.2
  rwa [if_pos (by decide : (0:Int) ≤ c4Nav.currentIdx)] at this

/-- C2 (divergence evaluation): `Navigator.Next` hands its own `data`
argument to the custom navigation handler.  The controller's call sites
pass the *global* data, so a handler that inspects the data's ID observes
`"global"`, not the current step's ID: on `c2Nav` (current step `"A"`,
handler returning 5 on the step's own data and 6 otherwise) `Next` called
with the global data yields 6. -/
theorem next_hands_caller_data_to_custom_handler :
    c2Nav.Next (NewFormData "global") = (6, none) ∧ (6 : Int) ≠ 5 := by
  constructor
  · rfl
  · decide

/-- C10 counterexample: with a current step `"A"` that has no cached values,
`GetCurrentFormData` returns the current step's ID, not an empty ID. -/
theorem getCurrentFormData_no_cache_keeps_id :
    c10Boba.GetCurrentFormData.ID = "A" ∧ ("A" : String) ≠ "" := by
  constructor
  · rfl
  · decide

/-- C10 (amended): `Build` initializes the global store; `GetGlobalData`
substitutes a fresh empty store when the global pointer is nil and
otherwise returns the stored data (non-nil Values whenever the stored data
has them, as everything the library stores does); `GetCurrentFormData`
always returns a non-nil Values store — an empty-ID FormData with a fresh
store when no form is current, and the current step's ID (with the cached
store, or a fresh one when none is cached) otherwise. -/
theorem getData_values_never_nil (b : BobaBuilder) (f : Bobarista) :
    b.Build.globalData = some { ID := "global", Values := some FormValues.empty } ∧
    (f.globalData = none → f.GetGlobalData = { ID := "global", Values := some FormValues.empty }) ∧
    (∀ gd, f.globalData = some gd → gd.Values.isSome → f.GetGlobalData.Values.isSome) ∧
    f.GetCurrentFormData.Values.isSome ∧
    (f.navigator.Current = none →
      f.GetCurrentFormData = { ID := "", Values := some FormValues.empty }) ∧
    (∀ current, f.navigator.Current = some current → f.cachedValues current.ID = none →
      f.GetCurrentFormData = { ID := current.ID, Values := some FormValues.empty }) := by
  refine ⟨rfl, ?_, ?_, ?_, ?_, ?_⟩
  · intro h
    simp [Bobarista.GetGlobalData, h]
  · intro gd h hv
    simp [Bobarista.GetGlobalData, h, hv]
  · simp only [Bobarista.GetCurrentFormData]
    cases hc : f.navigator.Current with
    | none => simp
    | some current =>
      cases hs : f.cachedValues current.ID with
      | none => simp [hs]
      | some stored => simp [hs]
  · intro h
    simp [Bobarista.GetCurrentFormData, h]
  · intro current hc hs
    simp [Bobarista.GetCurrentFormData, hc, hs]

/-- Witness for C10 at concrete states: a fresh build, a nil global pointer,
a state with no current form, and a state whose current step has no cache. -/
theorem getData_values_never_nil_witness :
    c10Builder.Build.globalData = some { ID := "global", Values := some FormValues.empty } ∧
    c10Nil.GetGlobalData = { ID := "global", Values := some FormValues.empty } ∧
    c9Active.GetCurrentFormData = { ID := "", Values := some FormValues.empty } ∧
    c10Boba.GetCurrentFormData = { ID := "A", Values := some FormValues.empty } := by
  have hb := (getData_values_never_nil c10Builder c10Nil).1
  have hnil := (getData_values_never_nil c10Builder c10Nil).2.1 rfl
  have hnoCur := (getData_values_never_nil c10Builder c9Active).2.2.2.2.1 rfl
  have hnoCache :=
    (getData_values_never_nil c10Builder c10Boba).2.2.2.2.2 (NewForm "A" "Form A") rfl rfl
  exact ⟨hb, hnil, hnoCur, hnoCache⟩

/-- The scan of `findNextValidForm` returns either `-1` with every candidate
at or after `i` skipped, or the first index at or after `i` whose form is
not skipped — always with a nil error. -/
theorem findAux_first (forms : List Form) (g : FormData) (i : Nat) :
    (findNextValidFormAux forms g i = (-1, none) ∧
      ∀ j, i ≤ j → j < forms.length → formNotSkipped (forms.getD j default) g = false) ∨
    (∃ j, findNextValidFormAux forms g i = (Int.ofNat j, none) ∧ i ≤ j ∧ j < forms.length ∧
      formNotSkipped (forms.getD j default) g = true ∧
      ∀ l, i ≤ l → l < j → formNotSkipped (forms.getD l default) g = false) := by
  by_cases h : i < forms.length
  · have hget : forms.getD i default = forms.get ⟨i, h⟩ := List.getD_eq_getElem forms default h
    by_cases hs : formNotSkipped (forms.get ⟨i, h⟩) g = true
    · right
      refine ⟨i, ?_, le_refl i, h, by rwa [hget], ?_⟩
      · rw [findNextValidFormAux, dif_pos h, if_pos hs]
      · intro l hl1 hl2
        omega
    · have hs' : formNotSkipped (forms.get ⟨i, h⟩) g = false := by
        cases hb : formNotSkipped (forms.get ⟨i, h⟩) g
        · rfl
        · exact absurd hb hs
      have hstep : findNextValidFormAux forms g i = findNextValidFormAux forms g (i + 1) := by
        rw [findNextValidFormAux, dif_pos h, if_neg hs]
      rcases findAux_first forms g (i + 1) with ⟨heq, hall⟩ | ⟨j, heq, hij, hjlen, hok, hfirst⟩
      · left
        refine ⟨hstep.trans heq, ?_⟩
        intro j hj1 hj2
        rcases Nat.eq_or_lt_of_le hj1 with rfl | hlt
        · rw [hget]; exact hs'
        · exact hall j hlt hj2
      · right
        refine ⟨j, hstep.trans heq, by omega, hjlen, hok, ?_⟩
        intro l hl1 hl2
        rcases Nat.eq_or_lt_of_le hl1 with rfl | hlt
        · rw [hget]; exact hs'
        · exact hfirst l hlt hl2
  · left
    constructor
    · rw [findNextValidFormAux, dif_neg h]
    · intro j hj1 hj2
      omega
termination_by forms.length - i

/-- C1: with no custom navigation (or no current form), `Next` performs the
default sequential search: scanning from `currentIdx+1` (resp. 0), each
candidate's skip predicate is evaluated on a freshly-constructed empty
local snapshot (see `formNotSkipped`: the navigator holds no per-form
cache, and the local data is literally `FormValues.empty`) paired with the
supplied global data; the result is the first index whose predicate is
absent or false, and `-1` with a nil error when the scan exhausts the
list. -/
theorem next_default_sequential (n : Navigator) (g : FormData) (start : Nat)
    (h : (n.Current = none ∧ start = 0) ∨
      (∃ c, n.Current = some c ∧ c.NextForm = none ∧ start = (n.currentIdx + 1).toNat)) :
    (n.Next g).2 = none ∧
    (((n.Next g).1 = -1 ∧
        ∀ j, start ≤ j → j < n.forms.length →
          formNotSkipped (n.forms.getD j default) g = false) ∨
      (∃ j, (n.Next g).1 = Int.ofNat j ∧ start ≤ j ∧ j < n.forms.length ∧
        formNotSkipped (n.forms.getD j default) g = true ∧
        ∀ l, start ≤ l → l < j → formNotSkipped (n.forms.getD l default) g = false)) := by
  have hnext : n.Next g = findNextValidFormAux n.forms g start := by
    rcases h with ⟨hc, rfl⟩ | ⟨c, hc, hnf, rfl⟩
    · simp [Navigator.Next, hc, Navigator.findNextValidForm]
    · simp [Navigator.Next, hc, hnf, Navigator.findNextValidForm]
  rw [hnext]
  rcases findAux_first n.forms g start with ⟨heq, hall⟩ | ⟨j, heq, h1, h2, h3, h4⟩
  · rw [heq]
    exact ⟨rfl, Or.inl ⟨rfl, hall⟩⟩
  · rw [heq]
    exact ⟨rfl, Or.inr ⟨j, rfl, h1, h2, h3, h4⟩⟩

/-- Witness for C1: on a one-form navigator positioned on its last form,
with no skip predicates and no custom navigation, `Next` returns `-1` with
a nil error. -/
theorem next_default_sequential_witness :
    c1Nav.Next (NewFormData "global") = (-1, none) := by
  have h := next_default_sequential c1Nav (NewFormData "global") 1
    (Or.inr ⟨NewForm "a" "A", rfl, rfl, rfl⟩)
  rcases h with ⟨h2, hcase⟩
  rcases hcase with ⟨h1, _⟩ | ⟨j, _, hj1, hj2, _, _⟩
  · cases he : c1Nav.Next (NewFormData "global") with
    | mk a b =>
      rw [he] at h1 h2
      simp only at h1 h2
      rw [h1, h2]
  · have hlen : c1Nav.forms.length = 1 := rfl
    rw [hlen] at hj2
    exact absurd hj2 (by omega)

/-- The scan returns `-1` or an in-range index, always with a nil error. -/
theorem findAux_bounds (forms : List Form) (g : FormData) (i : Nat) :
    findNextValidFormAux forms g i = (-1, none) ∨
    ∃ j, findNextValidFormAux forms g i = (Int.ofNat j, none) ∧ j < forms.length := by
  rcases findAux_first forms g i with ⟨heq, _⟩ | ⟨j, heq, _, hjlen, _, _⟩
  · exact Or.inl heq
  · exact Or.inr ⟨j, heq, hjlen⟩

/-- Every navigation operation preserves the form list. -/
theorem applyOp_forms (n : Navigator) (op : NavOp) : (n.applyOp op).forms = n.forms := by
  cases op with
  | moveTo i =>
    simp only [Navigator.applyOp, Navigator.MoveTo]
    split
    · rfl
    · by_cases h : 0 ≤ n.currentIdx <;> simp [h]
  | moveToFirstValid g =>
    simp only [Navigator.applyOp, Navigator.MoveToFirstValid]
    rcases findAux_bounds n.forms g 0 with heq | ⟨j, heq, _⟩ <;>
      simp only [Navigator.findNextValidForm, heq] <;> split <;> rfl
  | back =>
    simp only [Navigator.applyOp, Navigator.Back]
    cases h : n.history.getLast? <;> rfl
  | reset => rfl

/-- Every navigation operation preserves the index invariant. -/
theorem applyOp_wellFormed (n : Navigator) (op : NavOp) (hw : n.WellFormed) :
    (n.applyOp op).WellFormed := by
  obtain ⟨hcur, hhist⟩ := hw
  cases op with
  | moveTo i =>
    by_cases hin : i < 0 ∨ (n.forms.length : Int) ≤ i
    · have heq : n.applyOp (NavOp.moveTo i) = n := by
        simp only [Navigator.applyOp, Navigator.MoveTo, if_pos hin]
      rw [heq]
      exact ⟨hcur, hhist⟩
    · rw [not_or] at hin
      obtain ⟨hin1, hin2⟩ := hin
      have h1 : (0 : Int) ≤ i := by omega
      have h2 : i < (n.forms.length : Int) := by omega
      by_cases h : 0 ≤ n.currentIdx
      · have heq : n.applyOp (NavOp.moveTo i) =
            { forms := n.forms, currentIdx := i, history := n.history ++ [n.currentIdx] } := by
          simp only [Navigator.applyOp, Navigator.MoveTo, if_neg (not_or.mpr ⟨hin1, hin2⟩),
            if_pos h]
        rw [heq]
        refine ⟨Or.inr ⟨h1, h2⟩, ?_⟩
        intro x hx
        have hx' : x ∈ n.history ++ [n.currentIdx] := hx
        show 0 ≤ x ∧ x < (n.forms.length : Int)
        rw [List.mem_append, List.mem_singleton] at hx'
        rcases hx' with hx' | rfl
        · exact hhist x hx'
        · rcases hcur with hc | hc
          · omega
          · exact hc
      · have heq : n.applyOp (NavOp.moveTo i) =
            { forms := n.forms, currentIdx := i, history := n.history } := by
          simp only [Navigator.applyOp, Navigator.MoveTo, if_neg (not_or.mpr ⟨hin1, hin2⟩),
            if_neg h]
        rw [heq]
        exact ⟨Or.inr ⟨h1, h2⟩, hhist⟩
  | moveToFirstValid g =>
    rcases findAux_bounds n.forms g 0 with heq | ⟨j, heq, hjlen⟩
    · have heqop : n.applyOp (NavOp.moveToFirstValid g) = n := by
        simp only [Navigator.applyOp, Navigator.MoveToFirstValid, Navigator.findNextValidForm,
          heq, reduceIte]
      rw [heqop]
      exact ⟨hcur, hhist⟩
    · have hnn : (0 : Int) ≤ Int.ofNat j := Int.ofNat_nonneg j
      have hj : ¬((Int.ofNat j : Int) = -1) := by
        intro hc
        rw [hc] at hnn
        norm_num at hnn
      have heqop : n.applyOp (NavOp.moveToFirstValid g) =
          { forms := n.forms, currentIdx := Int.ofNat j, history := n.history } := by
        simp only [Navigator.applyOp, Navigator.MoveToFirstValid, Navigator.findNextValidForm,
          heq, if_neg hj]
      rw [heqop]
      have h1 : (0 : Int) ≤ Int.ofNat j := hnn
      have h2 : (Int.ofNat j : Int) < (n.forms.length : Int) := by
        rw [Int.ofNat_eq_natCast]
        exact_mod_cast hjlen
      exact ⟨Or.inr ⟨h1, h2⟩, hhist⟩
  | back =>
    cases h : n.history.getLast? with
    | none =>
      have heqop : n.applyOp NavOp.back = n := by
        simp only [Navigator.applyOp, Navigator.Back, h]
      rw [heqop]
      exact ⟨hcur, hhist⟩
    | some last =>
      have heqop : n.applyOp NavOp.back =
          { forms := n.forms, currentIdx := last, history := n.history.dropLast } := by
        simp only [Navigator.applyOp, Navigator.Back, h]
      rw [heqop]
      have hmem : last ∈ n.history := List.mem_of_mem_getLast? h
      have hlast := hhist last hmem
      refine ⟨Or.inr ⟨hlast.1, hlast.2⟩, ?_⟩
      intro x hx
      have hx' : x ∈ n.history.dropLast := hx
      exact hhist x (List.mem_of_mem_dropLast hx')
  | reset =>
    refine ⟨Or.inl rfl, ?_⟩
    intro x hx
    have hx' : x ∈ ([] : List Int) := hx
    exact absurd hx' (List.not_mem_nil x)

/-- C5: from `NewNavigator`, any sequence of `MoveTo`, `MoveToFirstValid`,
`Back` and `Reset` keeps the current index at `-1` or within `[0, N)` and
every history entry within `[0, N)` (the form list itself never changes). -/
theorem navigator_invariant (forms : List Form) (ops : List NavOp) :
    ((NewNavigator forms).applyOps ops).WellFormed ∧
    ((NewNavigator forms).applyOps ops).forms = forms := by
  suffices h : ∀ n : Navigator, n.WellFormed →
      (n.applyOps ops).WellFormed ∧ (n.applyOps ops).forms = n.forms by
    refine h (NewNavigator forms) ⟨Or.inl rfl, ?_⟩
    intro x hx
    simp [NewNavigator] at hx
  induction ops with
  | nil =>
    intro n hw
    exact ⟨hw, rfl⟩
  | cons op rest ih =>
    intro n hw
    have hstep := applyOp_wellFormed n op hw
    have hforms := applyOp_forms n op
    have hrest := ih (n.applyOp op) hstep
    simp only [Navigator.applyOps, List.foldl_cons] at *
    exact ⟨hrest.1, hrest.2.trans hforms⟩

/-- If the first-occurrence map already holds `id` at `v`, every later form
with that ID yields a duplicate error pairing `v` with its position. -/
theorem validateIDs_mem_of_map (forms : List Form) :
    ∀ (i : Nat) (m : String → Option Nat) (id : String) (v : Nat),
      m id = some v → id ≠ "" →
      ∀ k, k < forms.length → (forms.getD k default).ID = id →
        GoError.cupSleeve id (GoError.duplicateFormID id v (i + k)) ∈
          validateIDsAux forms i m := by
  induction forms with
  | nil =>
    intro i m id v hm hid k hk
    simp at hk
  | cons f rest ih =>
    intro i m id v hm hid k hk hkid
    cases k with
    | zero =>
      rw [List.getD_cons_zero] at hkid
      simp only [validateIDsAux]
      rw [if_neg (by rw [hkid]; exact hid), hkid, hm]
      simp
    | succ k' =>
      rw [List.getD_cons_succ] at hkid
      have hk' : k' < rest.length := by simpa using hk
      have harith : i + (k' + 1) = (i + 1) + k' := by omega
      simp only [validateIDsAux]
      by_cases hf : f.ID = ""
      · rw [if_pos hf, harith]
        exact List.mem_cons_of_mem _ (ih (i + 1) m id v hm hid k' hk' hkid)
      · rw [if_neg hf]
        cases hmf : m f.ID with
        | some w =>
          rw [harith]
          exact List.mem_cons_of_mem _ (ih (i + 1) m id v hm hid k' hk' hkid)
        | none =>
          have hne : id ≠ f.ID := by
            intro hc
            rw [← hc, hm] at hmf
            exact Option.noConfusion hmf
          have hm' : (fun x => if x = f.ID then some i else m x) id = some v := by
            simp [hne, hm]
          rw [harith]
          exact ih (i + 1) _ id v hm' hid k' hk' hkid

/-- A first occurrence at `j` (with the ID still unmapped) paired with any
later occurrence at `k` yields the duplicate error `(i+j, i+k)`. -/
theorem validateIDs_mem_dup (forms : List Form) :
    ∀ (i : Nat) (m : String → Option Nat) (id : String) (j k : Nat),
      j < k → k < forms.length →
      (forms.getD j default).ID = id → (forms.getD k default).ID = id → id ≠ "" →
      (∀ l, l < j → (forms.getD l default).ID ≠ id) →
      m id = none →
      GoError.cupSleeve id (GoError.duplicateFormID id (i + j) (i + k)) ∈
        validateIDsAux forms i m := by
  induction forms with
  | nil =>
    intro i m id j k hjk hk
    simp at hk
  | cons f rest ih =>
    intro i m id j k hjk hk hj hkid hid hfirst hm
    obtain ⟨k', rfl⟩ : ∃ k', k = k' + 1 := ⟨k - 1, by omega⟩
    rw [List.getD_cons_succ] at hkid
    have hk' : k' < rest.length := by simpa using hk
    have harithk : i + (k' + 1) = (i + 1) + k' := by omega
    cases j with
    | zero =>
      rw [List.getD_cons_zero] at hj
      simp only [validateIDsAux]
      rw [if_neg (by rw [hj]; exact hid), hj, hm]
      have hm' : (fun x => if x = id then some i else m x) id = some i := by simp
      have hmem := validateIDs_mem_of_map rest (i + 1)
        (fun x => if x = id then some i else m x) id i hm' hid k' hk' hkid
      rw [Nat.add_zero, harithk]
      exact hmem
    | succ j' =>
      have hfID : f.ID ≠ id := by
        have h0 := hfirst 0 (Nat.succ_pos j')
        rwa [List.getD_cons_zero] at h0
      rw [List.getD_cons_succ] at hj
      have hjk' : j' < k' := by omega
      have hfirst' : ∀ l, l < j' → (rest.getD l default).ID ≠ id := by
        intro l hl
        have := hfirst (l + 1) (by omega)
        rwa [List.getD_cons_succ] at this
      have harithj : i + (j' + 1) = (i + 1) + j' := by omega
      simp only [validateIDsAux]
      by_cases hf : f.ID = ""
      · rw [if_pos hf, harithj, harithk]
        exact List.mem_cons_of_mem _
          (ih (i + 1) m id j' k' hjk' hk' hj hkid hid hfirst' hm)
      · rw [if_neg hf]
        cases hmf : m f.ID with
        | some w =>
          rw [harithj, harithk]
          exact List.mem_cons_of_mem _
            (ih (i + 1) m id j' k' hjk' hk' hj hkid hid hfirst' hm)
        | none =>
          have hm' : (fun x => if x = f.ID then some i else m x) id = none := by
            simp [hfID.symm, hm]
          rw [harithj, harithk]
          exact ih (i + 1) _ id j' k' hjk' hk' hj hkid hid hfirst' hm'

/-- The ID-validation pass emits exactly one empty-ID error per form whose
ID is empty. -/
theorem validateIDs_count_empty (forms : List Form) :
    ∀ (i : Nat) (m : String → Option Nat),
      List.count (GoError.cupSleeve "" GoError.emptyFormID) (validateIDsAux forms i m) =
        (forms.filter (fun f => f.ID = "")).length := by
  induction forms with
  | nil =>
    intro i m
    rfl
  | cons f rest ih =>
    intro i m
    simp only [validateIDsAux]
    by_cases hf : f.ID = ""
    · rw [if_pos hf, List.count_cons_self, ih (i + 1) m,
        List.filter_cons_of_pos (by simp [hf]), List.length_cons]
    · rw [if_neg hf, List.filter_cons_of_neg (by simp [hf])]
      cases hmf : m f.ID with
      | some w =>
        rw [List.count_cons_of_ne ?hne, ih (i + 1) m]
        case hne =>
          intro hc
          injection hc with h1 h2
          exact hf h1.symm
      | none =>
        exact ih (i + 1) _

/-- No generator error is ever counted as an empty-ID error. -/
theorem generatorErrors_count_empty (forms : List Form) :
    List.count (GoError.cupSleeve "" GoError.emptyFormID)
      (forms.filterMap (fun form =>
        if form.Generator.isNone then some (GoError.cupSleeve form.ID GoError.noGenerator)
        else none)) = 0 := by
  rw [List.count_eq_zero]
  intro h
  rw [List.mem_filterMap] at h
  obtain ⟨form, _, hf⟩ := h
  by_cases hg : form.Generator.isNone
  · rw [if_pos hg] at hf
    injection hf with hf
    injection hf with h1 h2
    exact GoError.noConfusion h2
  · rw [if_neg hg] at hf
    exact Option.noConfusion hf

/-- Every generator-less form contributes an `ErrNoGenerator` error. -/
theorem generatorErrors_mem (forms : List Form) (form : Form) (hmem : form ∈ forms)
    (hg : form.Generator = none) :
    GoError.cupSleeve form.ID GoError.noGenerator ∈
      forms.filterMap (fun f =>
        if f.Generator.isNone then some (GoError.cupSleeve f.ID GoError.noGenerator)
        else none) := by
  rw [List.mem_filterMap]
  refine ⟨form, hmem, ?_⟩
  rw [hg]
  rfl

/-- C8: `ValidateNavigation` returns `ErrNoFormsProvided` for an empty flow;
otherwise it collects, in one list and without short-circuiting: one
empty-ID error per empty-ID form, a duplicate-ID error carrying the first
occurrence's index and the later occurrence's index for each duplicated ID
(indices 0 and 1 for two forms sharing an ID at positions 0 and 1), and an
`ErrNoGenerator` error for every generator-less form. -/
theorem validateNavigation_collects (n : Navigator) :
    (n.forms = [] → n.ValidateNavigation = [GoError.noFormsProvided]) ∧
    List.count (GoError.cupSleeve "" GoError.emptyFormID) n.ValidateNavigation =
      (n.forms.filter (fun f => f.ID = "")).length ∧
    (∀ i j : Nat, i < j → j < n.forms.length →
      (n.forms.getD i default).ID = (n.forms.getD j default).ID →
      (n.forms.getD i default).ID ≠ "" →
      (∀ l, l < i → (n.forms.getD l default).ID ≠ (n.forms.getD i default).ID) →
      GoError.cupSleeve (n.forms.getD i default).ID
        (GoError.duplicateFormID (n.forms.getD i default).ID i j) ∈ n.ValidateNavigation) ∧
    (∀ form ∈ n.forms, form.Generator = none →
      GoError.cupSleeve form.ID GoError.noGenerator ∈ n.ValidateNavigation) := by
  refine ⟨?_, ?_, ?_, ?_⟩
  · intro h
    simp [Navigator.ValidateNavigation, h]
  · by_cases hE : n.forms.isEmpty
    · have hnil : n.forms = [] := List.isEmpty_iff.mp hE
      rw [Navigator.ValidateNavigation, if_pos hE, hnil]
      rw [List.count_singleton]
      simp
    · rw [Navigator.ValidateNavigation, if_neg hE, List.count_append,
        validateIDs_count_empty n.forms 0 (fun _ => none),
        generatorErrors_count_empty]
      omega
  · intro i j hij hj hids hne hfirst
    have hnonnil : ¬n.forms.isEmpty := by
      intro hE
      rw [List.isEmpty_iff.mp hE] at hj
      simp at hj
    rw [Navigator.ValidateNavigation, if_neg hnonnil]
    rw [List.mem_append]
    left
    have := validateIDs_mem_dup n.forms 0 (fun _ => none)
      (n.forms.getD i default).ID i j hij hj rfl hids.symm hne hfirst rfl
    simpa using this
  · intro form hmem hg
    have hnonnil : ¬n.forms.isEmpty := by
      intro hE
      rw [List.isEmpty_iff.mp hE] at hmem
      simp at hmem
    rw [Navigator.ValidateNavigation, if_neg hnonnil, List.mem_append]
    right
    exact generatorErrors_mem n.forms form hmem hg

/-- Witness for C8 on a flow with two forms sharing ID "x" at positions 0
and 1, both lacking generators. -/
theorem validateNavigation_collects_witness :
    GoError.cupSleeve "x" (GoError.duplicateFormID "x" 0 1) ∈ c8Nav.ValidateNavigation ∧
    GoError.cupSleeve "x" GoError.noGenerator ∈ c8Nav.ValidateNavigation := by
  have h := validateNavigation_collects c8Nav
  constructor
  · have hd := h.2.2.1 0 1 (by decide) (by decide) (by decide) (by decide)
      (by intro l hl; omega)
    exact hd
  · exact h.2.2.2 (NewForm "x" "X1") (List.mem_cons_self _ _) rfl

/-- C3 counterexample: when the completion handler returns an error that is
already a CupSleeveError for a different form ("B"), the recorded entry is
that error unchanged — it does not wrap the current step's ID "A". -/
theorem onComplete_error_keeps_handler_form_id :
    (c3Boba.handleFormCompletion 0).1.errors =
      [GoError.cupSleeve "B" (GoError.msg "invalid")] ∧
    GoError.cupSleeve "B" (GoError.msg "invalid") ≠
      GoError.cupSleeve "A" (GoError.msg "invalid") := by
  refine ⟨rfl, ?_⟩
  decide

/-- C3 (amended): a failing step `OnComplete` puts the session in Error
state, appends exactly one error — the handler's error itself when it is
already form-scoped, otherwise one wrapping the step's ID and the handler's
error — performs no navigation, and never merges the step's data into the
global store (the global data is exactly the handler's output). -/
theorem onComplete_error_halts (f : Bobarista) (fuel : Nat) (current : Form)
    (hndl : CompletionHandler) (c' g' : FormData) (e : GoError)
    (hc : f.navigator.Current = some current)
    (hh : current.OnComplete = some hndl)
    (hr : hndl (f.currentStepData current) f.GetGlobalData = (c', g', some e)) :
    (f.handleFormCompletion fuel).1.state = BState.error ∧
    (f.handleFormCompletion fuel).1.errors = f.errors ++ [wrapFormError current.ID e] ∧
    (f.handleFormCompletion fuel).1.navigator = f.navigator ∧
    (f.handleFormCompletion fuel).1.globalData = some g' ∧
    (f.handleFormCompletion fuel).2 = Cmd.nil := by
  have heq : f.handleFormCompletion fuel =
      (({ f with globalData := some g' }).addError current.ID e, Cmd.nil) := by
    simp only [Bobarista.handleFormCompletion, hc, hh, hr]
  rw [heq]
  exact ⟨rfl, rfl, rfl, rfl, rfl⟩

/-- Witness for C3 on a concrete one-step flow whose handler fails with a
plain error "invalid" while on step "A". -/
theorem onComplete_error_halts_witness :
    (c3BobaPlain.handleFormCompletion 0).1.state = BState.error ∧
    (c3BobaPlain.handleFormCompletion 0).1.errors =
      [GoError.cupSleeve "A" (GoError.msg "invalid")] ∧
    (c3BobaPlain.handleFormCompletion 0).1.navigator = c3BobaPlain.navigator ∧
    (c3BobaPlain.handleFormCompletion 0).1.globalData = some (NewFormData "global") := by
  have h := onComplete_error_halts c3BobaPlain 0 c3FormPlain
    (fun c g => (c, g, some (GoError.msg "invalid")))
    (c3BobaPlain.currentStepData c3FormPlain) c3BobaPlain.GetGlobalData
    (GoError.msg "invalid") rfl rfl rfl
  exact ⟨h.1, h.2.1, h.2.2.1, h.2.2.2.1⟩

/-- C6: when the just-completed step's custom navigation handler returns
`-2` (and its completion handler succeeds), the controller enters Completed
state with the navigator untouched (no move) and no error recorded; the
result does not depend on any form's skip predicate — the `-2` branch of
`Next` returns before `findNextValidForm` can evaluate one. -/
theorem custom_nav_minus_two_completes (f : Bobarista) (fuel : Nat) (current : Form)
    (nf : NavigationHandler)
    (hc : f.navigator.Current = some current)
    (hOC : ∀ hndl, current.OnComplete = some hndl →
      ∀ cd gd, (hndl cd gd).2.2 = none)
    (hnf : current.NextForm = some nf)
    (hm2 : ∀ d, nf d = -2) :
    (f.handleFormCompletion fuel).1.state = BState.completed ∧
    (f.handleFormCompletion fuel).1.navigator = f.navigator ∧
    (f.handleFormCompletion fuel).1.errors = f.errors ∧
    (f.handleFormCompletion fuel).2 = Cmd.nil := by
  suffices h : ∃ gd'', f.handleFormCompletion fuel =
      ({ f with globalData := gd'', state := BState.completed }, Cmd.nil) by
    obtain ⟨gd'', heq⟩ := h
    rw [heq]
    exact ⟨rfl, rfl, rfl, rfl⟩
  cases hoc : current.OnComplete with
  | none =>
    refine ⟨some { f.GetGlobalData with Values := some (FormValues.Merge
      (f.GetGlobalData.Values.getD FormValues.empty) (f.currentStepData current).Values) }, ?_⟩
    simp only [Bobarista.handleFormCompletion, hc, hoc, Navigator.Next, hnf, hm2]
    norm_num
  | some hndl =>
    rcases hstep : hndl (f.currentStepData current) f.GetGlobalData with ⟨c', g', e⟩
    have he : e = none := by
      have := hOC hndl hoc (f.currentStepData current) f.GetGlobalData
      rw [hstep] at this
      exact this
    subst he
    refine ⟨some { g' with Values := some (FormValues.Merge
      (g'.Values.getD FormValues.empty) c'.Values) }, ?_⟩
    simp only [Bobarista.handleFormCompletion, hc, hoc, hstep, Navigator.Next, hnf, hm2]
    norm_num

/-- Witness for C6 on a concrete two-step flow whose first step's custom
navigation handler returns `-2` and whose second step has a skip predicate. -/
theorem custom_nav_minus_two_completes_witness :
    (c6Boba.handleFormCompletion 0).1.state = BState.completed ∧
    (c6Boba.handleFormCompletion 0).1.navigator = c6Boba.navigator ∧
    (c6Boba.handleFormCompletion 0).1.errors = c6Boba.errors := by
  have h := custom_nav_minus_two_completes c6Boba 0 c6Form (fun _ => -2)
    rfl (by intro hndl hcontra; exact Option.noConfusion hcontra) rfl (fun d => rfl)
  exact ⟨h.1, h.2.1, h.2.2.1⟩

/-- `initCurrentForm` never puts a non-Active session back into Active. -/
theorem initCurrentForm_active (fuel : Nat) :
    ∀ f : Bobarista, (f.initCurrentForm fuel).1.state = BState.active →
      f.state = BState.active := by
  induction fuel with
  | zero =>
    intro f h
    simp only [Bobarista.initCurrentForm] at h
    repeat' split at h
    all_goals first
      | exact h
      | (have h2 : BState.completed = BState.active := h
         exact absurd h2 (by decide))
      | (have h2 : BState.error = BState.active := h
         exact absurd h2 (by decide))
  | succ n ih =>
    intro f h
    rw [Bobarista.initCurrentForm] at h
    dsimp only at h
    repeat' split at h
    all_goals first
      | exact h
      | (have hh := ih _ h
         exact hh)
      | (have h2 : BState.completed = BState.active := h
         exact absurd h2 (by decide))
      | (have h2 : BState.error = BState.active := h
         exact absurd h2 (by decide))

/-- `handleFormCompletion` never puts a non-Active session back into Active. -/
theorem handleFormCompletion_active (f : Bobarista) (fuel : Nat) :
    (f.handleFormCompletion fuel).1.state = BState.active → f.state = BState.active := by
  intro h
  simp only [Bobarista.handleFormCompletion] at h
  repeat' split at h
  all_goals first
    | exact h
    | (have hh := initCurrentForm_active fuel _ h
       exact hh)
    | (have h2 : BState.completed = BState.active := h
       exact absurd h2 (by decide))
    | (have h2 : BState.error = BState.active := h
       exact absurd h2 (by decide))

/-- `updateCurrentForm` never puts a non-Active session back into Active. -/
theorem updateCurrentForm_active (f : Bobarista) (upd : HuhForm → Msg → HuhForm)
    (msg : Msg) (fuel : Nat) :
    (f.updateCurrentForm upd msg fuel).1.state = BState.active →
      f.state = BState.active := by
  intro h
  simp only [Bobarista.updateCurrentForm] at h
  repeat' split at h
  all_goals first
    | exact h
    | (have hh := handleFormCompletion_active _ fuel h
       exact hh)

/-- `handleCompletedState` never puts a non-Active session back into Active. -/
theorem handleCompletedState_active (f : Bobarista) (k : String) :
    (f.handleCompletedState k).1.state = BState.active → f.state = BState.active := by
  intro h
  simp only [Bobarista.handleCompletedState] at h
  repeat' split at h
  all_goals first
    | exact h
    | (have h2 : BState.error = BState.active := h
       exact absurd h2 (by decide))

/-- The fall-through tail never puts a non-Active session back into Active. -/
theorem updateTail_active (f : Bobarista) (upd : HuhForm → Msg → HuhForm)
    (msg : Msg) (fuel : Nat) :
    (f.updateTail upd msg fuel).1.state = BState.active → f.state = BState.active := by
  intro h
  simp only [Bobarista.updateTail] at h
  split at h
  · exact updateCurrentForm_active _ upd msg fuel h
  · exact h

/-- C9: the controller step never re-enters Active: any post-step Active
state was already Active, so Completed and Error absorb all input events;
out of Active the only reachable states are Completed and Error (the state
enum has no others), while Completed may still step to Error — witnessed by
a failing finish callback on `c9Demo`. -/
theorem state_never_returns_to_active :
    (∀ (f : Bobarista) (upd : HuhForm → Msg → HuhForm) (msg : Msg) (fuel : Nat),
      (f.Update upd msg fuel).1.state = BState.active → f.state = BState.active) ∧
    ((c9Demo.Update huhId (Msg.key "enter") 0).1.state = BState.error ∧
      c9Demo.state = BState.completed) := by
  constructor
  · intro f upd msg fuel h
    cases msg with
    | windowSize w ht =>
      simp only [Bobarista.Update] at h
      split at h
      · exact h
      · exact updateTail_active _ upd _ fuel h
    | key k =>
      simp only [Bobarista.Update] at h
      repeat' split at h
      all_goals first
        | exact h
        | (have hh := handleCompletedState_active _ k h
           exact hh)
        | (have hh := updateCurrentForm_active _ upd _ fuel h
           exact hh)
        | (have hh := updateTail_active _ upd _ fuel h
           exact hh)
    | other =>
      simp only [Bobarista.Update] at h
      exact updateTail_active _ upd _ fuel h
  · exact ⟨rfl, rfl⟩

/-- Witness for C9: a concrete Active session stays Active across a step,
discharging the implication at a concrete input. -/
theorem state_never_returns_to_active_witness :
    (c9Active.Update huhId Msg.other 0).1.state = BState.active ∧
    c9Active.state = BState.active := by
  have h1 : (c9Active.Update huhId Msg.other 0).1.state = BState.active := rfl
  exact ⟨h1, state_never_returns_to_active.1 c9Active huhId Msg.other 0 h1⟩
